import Mathlib

/-!
# Shallow embedding of the `rust_matrix_client` room/session core

This file embeds, in Lean 4, the parts of the repository that the
verification below is about:

* `src/src/sequence_number.rs` — the `SequenceNumber` monotonic counter;
* `src/src/room/mod.rs` — the room `Id` type;
* `src/src/room/net/mod.rs` — the `Action`/`NewRoom` action types;
* `src/src/event.rs` — the `NetEventKind`/`NetEvent` event types;
* `src/src/room/net/app.rs` — the root (local) room session `App`;
* `src/src/room/net/matrix.rs` — the federated session `Server` with its
  reconciliation (`sync`) pass.

Conventions of the embedding:

* Rust `usize` values (sequence numbers, room ids, dates) are modelled as
  `Nat`; where the source increments a `usize` (`SequenceNumber`), the
  model wraps at `USIZE = 2^64` as release-mode Rust arithmetic does.
  `ruma_identifiers::RoomId` is modelled as `String`.
* The std `Debug`/`Display` formatting machinery and the `url` parser are
  external library code, not repository code: they enter the model as
  explicit function parameters (`debugFmt`, `parseUrl`).
* `std::collections::HashMap` fields are modelled as association lists
  (`List (key × value)`) with `alookup` / `aremove` mirroring
  `HashMap::get` / `HashMap::remove`; `insert` at the call sites of the
  source is only performed after an absence check, so it is modelled by
  consing the new binding.
* Channel plumbing (`tokio::sync::mpsc` senders/receivers), thread handles
  and the `hyper` client value are not data; only `client.is_some()` is
  observable in the modelled code, so `client` is modelled as a `Bool`.
  The `requester` channel field of the `NewRoom` event is omitted for the
  same reason.
* `Utc::now()` is modelled by threading an explicit `now : Nat` parameter.
* Network calls are modelled by explicit transport parameters: the result
  of the remote call is an input of the function that performs it.
* The `Arc<Mutex<SequenceNumber>>` counter shared between sessions is
  modelled as owned state; every access in the source is serialized
  through the mutex, so within one session's step the counter behaves as
  owned state.
-/

namespace MatrixClient

/-! ## Association-list model of the `HashMap` operations used by the source -/

/-- Source: `HashMap::get`: first binding of key `a`, if any. -/
def alookup {α β : Type} [DecidableEq α] : List (α × β) → α → Option β
  | [], _ => none
  | (k, v) :: t, a => if k = a then some v else alookup t a

/-- Source: `HashMap::remove`: drop the binding of key `a` (the first one; the
states reachable by the source never bind one key twice). -/
def aremove {α β : Type} [DecidableEq α] : List (α × β) → α → List (α × β)
  | [], _ => []
  | (k, v) :: t, a => if k = a then t else (k, v) :: aremove t a

/-! ## `src/src/sequence_number.rs` -/

/-- Width of `usize` on the 64-bit targets this crate builds for: the
counter increment below wraps at this modulus, as Rust integer
arithmetic does in release builds (debug builds panic at the same
point; either way the counter cannot progress past `2^64` distinct
values). -/
def USIZE : Nat := 2 ^ 64

/-- Source: `pub struct SequenceNumber { sn: usize }` -/
structure SequenceNumber where
  sn : Nat
deriving DecidableEq, Repr

/-- Source: `Iterator::next` for `SequenceNumber`:
`let ret = self.sn; self.sn += 1; Some(ret)`.
The mutation of `self` is modelled by returning the updated generator;
the `usize` increment wraps at `USIZE` (release semantics). -/
def SequenceNumber.next (s : SequenceNumber) : Option Nat × SequenceNumber :=
  (some s.sn, { sn := (s.sn + 1) % USIZE })

/-- Source: `Default::default`: `Self { sn: 0 }`. -/
def SequenceNumber.default : SequenceNumber := { sn := 0 }

/-- Source: `next().unwrap()` as used at every call site of the source; justified
by `SequenceNumber.next_eq_nextU` below. -/
def SequenceNumber.nextU (s : SequenceNumber) : Nat × SequenceNumber :=
  (s.sn, { sn := (s.sn + 1) % USIZE })

theorem SequenceNumber.next_eq_nextU (s : SequenceNumber) :
    s.next = (some s.nextU.1, s.nextU.2) := rfl

/-- The list of values produced by `n` successive calls to `next()`,
together with the final generator state. -/
def SequenceNumber.take : SequenceNumber → Nat → List (Option Nat) × SequenceNumber
  | s, 0 => ([], s)
  | s, n + 1 =>
      let (v, s') := s.next
      let (vs, s'') := s'.take n
      (v :: vs, s'')

/-! ## `src/src/room/mod.rs`: the room identity scheme

`pub type Id = Vec<usize>;` (line 9) declares hierarchical addresses, but
every use of `room::Id` in `app.rs` / `matrix.rs` / `net/app.rs` treats an
id as a single `usize` allocated from the shared `SequenceNumber` (the
tree is mid-refactor).  The session embeddings below therefore use `Nat`
ids, exactly as `matrix.rs` and `net/app.rs` do, while the hierarchical
address operations of the spec (`child_of`, `is_root`), which have no
implementation under `src/`, are modelled from the spec over
`RoomAddress := List Nat`. -/

/-- Source: `pub type Id = Vec<usize>;` (src/src/room/mod.rs:9). -/
abbrev RoomAddress : Type := List Nat

/-- Modelled from the spec: `child_of(parent, index) -> address` "appends
one segment" (§4.2); no implementation of `child_of` exists under `src/`. -/
def child_of (parent : RoomAddress) (index : Nat) : RoomAddress :=
  parent ++ [index]

/-- Modelled from the spec: `is_root(address) -> bool` (§4.2); "the root
room's address is the empty sequence" (§3). -/
def is_root (a : RoomAddress) : Bool :=
  a.isEmpty

/-- Modelled from the spec: the root room's address (§3). -/
def rootAddress : RoomAddress := []

/-! ## `src/src/event.rs`: events -/

/-- Source: `pub struct Message { pub content: String }` -/
structure Message where
  content : String
deriving DecidableEq, Repr

/-- Source: `ruma_events::presence::PresenceState` (re-exported as
`MatrixPresence`). -/
inductive MatrixPresence
  | offline
  | online
  | unavailable
deriving DecidableEq, Repr

/-- Source: `pub struct Presence` of `event.rs`. -/
structure Presence where
  id : String
  display_name : Option String
  active : Option Bool
  status_msg : Option String
  presence : MatrixPresence
deriving DecidableEq, Repr

/-- Source: `pub enum NetEventKind` of `event.rs`.  The `NewRoom` payload keeps
the `id: Option<room::Id>` and `alias: String` fields; its `requester`
channel handle is not data and is omitted. -/
inductive NetEventKind
  | connected
  | disconnected
  | invite
  | message (m : Message)
  | newRoom (id : Option Nat) (roomAlias : String)
  | presence (p : Presence)
  | error (s : String)
  | unknown (ty data : String)
deriving DecidableEq, Repr

/-- Source: `pub struct NetEvent` of `event.rs`: `date`, `room`, `source`,
`event`. -/
structure NetEvent where
  date : Nat
  room : Nat
  source : Option String
  event : NetEventKind
deriving DecidableEq, Repr

/-- Source: `NetEventKind::to_event(room, date, source)`. -/
def NetEventKind.to_event (e : NetEventKind) (room : Nat) (date : Nat)
    (source : Option String) : NetEvent :=
  { date := date, room := room, source := source, event := e }

/-- Source: `NetEventKind::to_current_event(room, source)`; `now()` is the
explicit `now` parameter. -/
def NetEventKind.to_current_event (e : NetEventKind) (room : Nat) (now : Nat)
    (source : Option String) : NetEvent :=
  e.to_event room now source

/-! ## `src/src/room/net/mod.rs`: actions -/

/-- Source: `pub struct NewRoom { alias, command }` of `room/net/mod.rs`
(the spawn-room request: user alias and backend-selection tokens). -/
structure NewRoomCmd where
  roomAlias : String
  command : List String
deriving DecidableEq, Repr

/-- Source: `pub enum ActionKind` of `room/net/mod.rs`. -/
inductive ActionKind
  | sync
  | connect
  | disconnect
  | publish (msg : String)
  | newRoom (cmd : NewRoomCmd)
deriving DecidableEq, Repr

/-! ## `src/src/room/net/matrix.rs`: the federated session `Server` -/

/-- Source: `struct Error { id: room::Id, error: String }` /
`struct ErrorBatch { errors: Vec<Error> }`: an error batch is a list of
(room id, message) pairs.  `From<(room::Id, S)>` builds the singleton
batch `[(id, s)]`. -/
abbrev ErrorBatch : Type := List (Nat × String)

/-- Source: `ruma` `MessageEventContent`: the `Text` payload carries its body;
every non-text payload is only ever `{:?}`-printed by the source, so it
is modelled by its debug rendering. -/
inductive MessageEventContent
  | text (body : String)
  | other (debugDesc : String)
deriving DecidableEq, Repr

/-- Source: `ruma` `RoomEvent` as consumed by `sync`: a `RoomMessage` (content and
`origin_server_ts`), or any other room event kind, only ever
`{:?}`-printed. -/
inductive RoomEvent
  | roomMessage (content : MessageEventContent) (origin_server_ts : Nat)
  | other (debugDesc : String)
deriving DecidableEq, Repr

/-- Source: `ruma_events::EventResult`: a deserialized event or a deserialization
error (only ever rendered to a string by the source). -/
inductive EventResult (α : Type)
  | ok (e : α)
  | err (debugDesc : String)
deriving DecidableEq, Repr

/-- The timeline part of one joined-room entry of a sync response
(`data.timeline.events`). -/
structure JoinedRoom where
  timeline : List (EventResult RoomEvent)
deriving DecidableEq, Repr

/-- One `ruma` presence event as consumed by `sync` (`p.sender`,
`p.content.*`). -/
structure PresenceEvent where
  sender : String
  displayname : Option String
  currently_active : Option Bool
  status_msg : Option String
  presence : MatrixPresence
deriving DecidableEq, Repr

/-- The fields of a `sync_events` response read by `sync`: the keys of
`rooms.leave` / `rooms.invite`, the entries of `rooms.join`, the
`presence.events` list, and `next_batch`. -/
structure SyncResponse where
  leave : List String
  join : List (String × JoinedRoom)
  invite : List String
  presence : List (EventResult PresenceEvent)
  next_batch : String
deriving DecidableEq, Repr

/-- Source: `pub struct Server` of `matrix.rs`, restricted to its data fields:
connection parameters, thread handles and channels are plumbing (only
`client.is_some()` is observable in the embedded code, hence
`client : Bool`). -/
structure Server where
  id : Nat
  last_sync : Option String
  client : Bool
  rooms_by_name : List (String × Nat)
  rooms_by_id : List (Nat × String)
  room_sn : SequenceNumber
  msg_sn : SequenceNumber
deriving DecidableEq, Repr

/-- Source: `Server::add_room_name`: refuse an already-opened room, otherwise
allocate a fresh sequence number from the shared counter and insert the
pair of bindings. -/
def Server.add_room_name (s : Server) (name : String) :
    Except String (Nat × Server) :=
  if (alookup s.rooms_by_name name).isSome then
    .error ("Room '" ++ name ++ "' is already opened")
  else
    let (sn, sn') := s.room_sn.nextU
    .ok (sn, { s with
      rooms_by_name := (name, sn) :: s.rooms_by_name,
      rooms_by_id := (sn, name) :: s.rooms_by_id,
      room_sn := sn' })

/-- Source: `Server::spawn_room`: allocate the room and emit the `NewRoom` event
at the server's own address (`send_current`), aliasing the room name when
no alias is given. -/
def Server.spawn_room (s : Server) (now : Nat) (name : String)
    (roomAlias : Option String) : Except String (Server × NetEvent) :=
  match s.add_room_name name with
  | .error e => .error e
  | .ok (id, s') =>
      .ok (s', (NetEventKind.newRoom (some id) (roomAlias.getD name)).to_current_event
        s'.id now none)

/-- Source: `Server::remove_room`: remove the id binding and, when it existed,
the corresponding name binding; return the removed room name. -/
def Server.remove_room (s : Server) (id : Nat) : Server × Option String :=
  match alookup s.rooms_by_id id with
  | some room_name =>
      ({ s with
          rooms_by_id := aremove s.rooms_by_id id,
          rooms_by_name := aremove s.rooms_by_name room_name },
        some room_name)
  | none => (s, none)

/-- Source: `Server::sync_request`: `Ok(None)` when there is no client, the
response on transport success, and on transport failure the singleton
`ErrorBatch` attributed to the server's own id.  The transport outcome is
the explicit `transport` parameter (the request's `filter` /
`set_presence` fields only shape the wire request). -/
def Server.sync_request (s : Server) (transport : Except String SyncResponse) :
    Except ErrorBatch (Option SyncResponse) :=
  if s.client = false then .ok none
  else
    match transport with
    | .ok response => .ok (some response)
    | .error e => .error [(s.id, e)]

/-- The leave section of `sync`: for each left room name known locally,
emit `Disconnected` at its mapped id (`send_current_as`). -/
def Server.leaveEvents (s : Server) (now : Nat) (leave : List String) :
    List NetEvent :=
  leave.filterMap fun name =>
    (alookup s.rooms_by_name name).map fun id =>
      NetEventKind.disconnected.to_current_event id now none

/-- One iteration of the timeline loop of the join section of `sync`,
for one room `id`: a `RoomMessage` entry becomes a `Message` event dated
by `origin_server_ts` (`send_as`), non-text message payloads being
rendered as `"Unsupported message: …"`; any other event kind and any
deserialization failure is appended to the error batch for `id`. -/
def timelineStep (id : Nat) (acc : List NetEvent × ErrorBatch)
    (e : EventResult RoomEvent) : List NetEvent × ErrorBatch :=
  match e with
  | .ok (.roomMessage content ts) =>
      let body :=
        match content with
        | .text b => b
        | .other x => "Unsupported message: " ++ x
      (acc.1 ++ [(NetEventKind.message { content := body }).to_event id ts none],
        acc.2)
  | .ok (.other x) =>
      (acc.1, acc.2 ++ [(id, "Unmanaged room event type: " ++ x)])
  | .err e =>
      (acc.1, acc.2 ++ [(id, "room timeline error: " ++ e)])

/-- The whole timeline loop of the join section of `sync` for one room
`id`: the `Message` events emitted and the errors accumulated. -/
def timelineOutputs (id : Nat) (timeline : List (EventResult RoomEvent)) :
    List NetEvent × ErrorBatch :=
  timeline.foldl (timelineStep id) ([], [])

/-- One iteration of the join loop of `sync`: spawn the room when it is
unseen, emit `Connected` at its id, then process its timeline.  The
source unwraps both the `spawn_room` result and the id lookup after it;
both unreachable branches (`spawn_room` fails only on an already-known
name, and the lookup follows an insertion of that very name) leave the
accumulator unchanged here. -/
def Server.joinStep (now : Nat) (acc : Server × List NetEvent × ErrorBatch)
    (entry : String × JoinedRoom) : Server × List NetEvent × ErrorBatch :=
  let s := acc.1
  let evs := acc.2.1
  let errs := acc.2.2
  let name := entry.1
  let data := entry.2
  let spawned : Server × List NetEvent :=
    if (alookup s.rooms_by_name name).isNone then
      match s.spawn_room now name none with
      | .ok (s', ev) => (s', evs ++ [ev])
      | .error _ => (s, evs)
    else (s, evs)
  let s1 := spawned.1
  let evs1 := spawned.2
  match alookup s1.rooms_by_name name with
  | none => (s1, evs1, errs)
  | some id =>
      let tl := timelineOutputs id data.timeline
      (s1,
        evs1 ++ [NetEventKind.connected.to_current_event id now none] ++ tl.1,
        errs ++ tl.2)

/-- The invite section of `sync`: for each inviting room name known
locally (after the join section ran), emit `Invite` at its mapped id. -/
def Server.inviteEvents (s : Server) (now : Nat) (invite : List String) :
    List NetEvent :=
  invite.filterMap fun name =>
    (alookup s.rooms_by_name name).map fun id =>
      NetEventKind.invite.to_current_event id now none

/-- The presence section of `sync`: each decoded presence event is
emitted at the server's *own* id with the originating user as source
(`send_current_by`); decoding failures are appended to the error batch,
attributed to the server's own id. -/
def Server.presenceStep (s : Server) (now : Nat)
    (acc : List NetEvent × ErrorBatch) (p : EventResult PresenceEvent) :
    List NetEvent × ErrorBatch :=
  match p with
  | .ok p =>
      (acc.1 ++ [(NetEventKind.presence
          { id := p.sender
            display_name := p.displayname
            active := p.currently_active
            status_msg := p.status_msg
            presence := p.presence }).to_current_event s.id now (some p.sender)],
        acc.2)
  | .err e => (acc.1, acc.2 ++ [(s.id, e)])

/-- The whole presence loop of `sync`. -/
def Server.presenceOutputs (s : Server) (now : Nat)
    (ps : List (EventResult PresenceEvent)) : List NetEvent × ErrorBatch :=
  ps.foldl (s.presenceStep now) ([], [])

instance {ε α : Type} [DecidableEq ε] [DecidableEq α] :
    DecidableEq (Except ε α) := fun a b =>
  match a, b with
  | .error e, .error f =>
      match decEq e f with
      | isTrue h => isTrue (h ▸ rfl)
      | isFalse h => isFalse fun hh => h (Except.error.inj hh)
  | .ok x, .ok y =>
      match decEq x y with
      | isTrue h => isTrue (h ▸ rfl)
      | isFalse h => isFalse fun hh => h (Except.ok.inj hh)
  | .error _, .ok _ => isFalse fun hh => Except.noConfusion hh
  | .ok _, .error _ => isFalse fun hh => Except.noConfusion hh

/-- The outcome of one reconciliation pass: the updated server state, the
events it emitted on the inbound channel in order, and the
`Result<(), ErrorBatch>` it returns. -/
structure SyncOut where
  server : Server
  events : List NetEvent
  result : Except ErrorBatch Unit
deriving DecidableEq, Repr

/-- Source: `Server::sync`: no-op without a client; propagate a failed
`sync_request` untouched; otherwise process leaves, joins, invites and
presence in that order, advance `last_sync` to the response's
`next_batch`, and return the accumulated error batch (`Ok` when it is
empty). -/
def Server.sync (s : Server) (now : Nat)
    (transport : Except String SyncResponse) : SyncOut :=
  if s.client = false then { server := s, events := [], result := .ok () }
  else
    match s.sync_request transport with
    | .error batch => { server := s, events := [], result := .error batch }
    | .ok none => { server := s, events := [], result := .ok () }
    | .ok (some resp) =>
        let lEvs := s.leaveEvents now resp.leave
        let folded := resp.join.foldl (Server.joinStep now) (s, [], [])
        let s1 := folded.1
        let jEvs := folded.2.1
        let errs1 := folded.2.2
        let iEvs := s1.inviteEvents now resp.invite
        let pOut := s1.presenceOutputs now resp.presence
        let errs := errs1 ++ pOut.2
        { server := { s1 with last_sync := some resp.next_batch },
          events := lEvs ++ jEvs ++ iEvs ++ pOut.1,
          result := if errs = [] then .ok () else .error errs }

/-- The backend requests a sub-room action can issue
(`join_room_by_id`, `leave_room`, `create_message_event`). -/
inductive SubRequest
  | joinRoom (roomId : String)
  | leaveRoom (roomId : String)
  | createMessageEvent (roomId : String) (txnId : String) (body : String)
deriving DecidableEq, Repr

/-- The outcome of `process_sub_room_action`: updated state, events
emitted, backend requests issued, and the returned
`Result<(), ErrorBatch>`. -/
structure SubOut where
  server : Server
  events : List NetEvent
  requests : List SubRequest
  result : Except ErrorBatch Unit
deriving DecidableEq, Repr

/-- Source: `Server::process_sub_room_action`: reject an unknown room id up
front with a singleton batch attributed to the server's own id, without
touching the backend or the state; otherwise dispatch on the action.
`transport` gives the outcome of each backend request.  The source
unwraps `self.client` inside the connect/disconnect/publish arms; that
panic is modelled as `none`. -/
def Server.process_sub_room_action (s : Server) (now : Nat)
    (transport : SubRequest → Except String Unit)
    (room : Nat) (act : ActionKind) : Option SubOut :=
  if (alookup s.rooms_by_id room).isNone then
    some { server := s, events := [], requests := [],
           result := .error [(s.id, "Unknown room " ++ toString room)] }
  else
    match act with
    | .connect =>
        match alookup s.rooms_by_id room with
        | none => none
        | some room_name =>
            if s.client = false then none
            else
              let req := SubRequest.joinRoom room_name
              let kind :=
                match transport req with
                | .ok _ => NetEventKind.connected
                | .error e =>
                    NetEventKind.error
                      ("Failed to join room '" ++ room_name ++ "': '" ++ e ++ "'")
              some { server := s,
                     events := [kind.to_current_event room now none],
                     requests := [req], result := .ok () }
    | .disconnect =>
        match alookup s.rooms_by_id room with
        | none => none
        | some room_name =>
            if s.client = false then none
            else
              let req := SubRequest.leaveRoom room_name
              let kind :=
                match transport req with
                | .ok _ => NetEventKind.disconnected
                | .error e =>
                    -- the source's error text says "join" here too
                    NetEventKind.error
                      ("Failed to join room '" ++ room_name ++ "': '" ++ e ++ "'")
              some { server := s,
                     events := [kind.to_current_event room now none],
                     requests := [req], result := .ok () }
    | .publish msg =>
        match alookup s.rooms_by_id room with
        | none => none
        | some room_name =>
            if s.client = false then none
            else
              let (txn, msgSn') := s.msg_sn.nextU
              let req := SubRequest.createMessageEvent room_name (toString txn) msg
              let s' := { s with msg_sn := msgSn' }
              match transport req with
              | .ok _ =>
                  some { server := s', events := [], requests := [req],
                         result := .ok () }
              | .error e =>
                  some { server := s', events := [], requests := [req],
                         result := .error [(room, e)] }
    | .newRoom _ =>
        some { server := s, events := [], requests := [],
               result := .error
                 [(room, "How could a matrix room generate another chat room?")] }
    | .sync =>
        some { server := s, events := [], requests := [],
               result := .error [(room, "A matrix room cannot sync by itself")] }

/-- The error-demultiplexing step of `Server::start`: each entry of a
returned `ErrorBatch` becomes an `Error` event at its own id
(`send_error` when it is the server's own id, `send_error_as`
otherwise — both produce the same event shape). -/
def demuxErrorBatch (selfId : Nat) (now : Nat) (batch : ErrorBatch) :
    List NetEvent :=
  batch.map fun e =>
    if e.1 = selfId then (NetEventKind.error e.2).to_current_event selfId now none
    else (NetEventKind.error e.2).to_current_event e.1 now none

/-! ## `src/src/room/net/app.rs`: the root (local) session `App` -/

/-- Source: `pub struct Credentials` of `matrix.rs`. -/
structure Credentials where
  username : String
  password : String
deriving DecidableEq, Repr

/-- Source: `pub struct App` of `net/app.rs`, restricted to its data: its id and
the shared room counter (its `ServerHandle` is channel plumbing). -/
structure App where
  id : Nat
  room_sn : SequenceNumber
deriving DecidableEq, Repr

/-- What a successful `App::spawn` produces: the freshly allocated id and
the requested alias (the fields of the returned `event::NewRoom`), the
matrix `Server` it constructed and started, its credentials, and the
synthetic `Connect` action it sent to that child. -/
structure SpawnOk where
  id : Nat
  roomAlias : String
  server : Server
  credentials : Option Credentials
  childAction : Nat × ActionKind
deriving DecidableEq, Repr

/-- Source: `App::spawn`: reject an empty token list; dispatch on the backend
name; for `"matrix"`, require a URL token, read optional credentials,
allocate a child id from the shared counter, then parse the URL (the
external `url` parser is the `parseUrl` parameter; note the id is
allocated *before* the URL is parsed, as in the source) and construct
and start the matrix `Server` (its `new` cannot fail), sending it a
synthetic `Connect`.  Any other backend name is reported as
unsupported. -/
def App.spawn (a : App) (parseUrl : String → Except String String)
    (room : NewRoomCmd) : Except String SpawnOk × App :=
  match room.command with
  | [] => (.error "No server type specified! Syntax: <server_type> [...args]", a)
  | s_type :: tokens =>
      if s_type = "matrix" then
        match tokens with
        | [] => (.error "Bad syntax. Syntax: matrix <url> [username [password]]", a)
        | url :: rest =>
            let credentials : Option Credentials :=
              match rest with
              | [] => none
              | username :: rest2 =>
                  some { username := username,
                         password := match rest2 with
                           | [] => ""
                           | password :: _ => password }
            let (id, sn') := a.room_sn.nextU
            let a' := { a with room_sn := sn' }
            match parseUrl url with
            | .error e => (.error e, a')
            | .ok _ =>
                let server : Server :=
                  { id := id, last_sync := none, client := false,
                    rooms_by_name := [], rooms_by_id := [],
                    room_sn := sn', msg_sn := SequenceNumber.default }
                (.ok { id := id, roomAlias := room.roomAlias, server := server,
                       credentials := credentials,
                       childAction := (id, ActionKind.connect) }, a')
      else (.error ("Unknown server type '" ++ s_type ++ "'"), a)

/-- One iteration of the `App::start` action loop: `connect` /
`disconnect` / `sync` are rejected with an error event at the app's own
id; `publish` echoes a `Message` event attributed to `"Me"` at the app's
own id; `new_room` runs `App::spawn`, emitting the `NewRoom` event on
success and, on failure, an error event whose text is the spawn error
rendered by `format!("{:?}", e)` — the std `Debug` formatter is external
library code and enters the model as the `debugFmt` parameter, exactly
as the external `url` parser enters as `parseUrl`.  Returns the emitted
events, the updated app and the spawn outcome. -/
def App.processAction (a : App) (now : Nat)
    (parseUrl : String → Except String String)
    (debugFmt : String → String) (act : ActionKind) :
    List NetEvent × App × Option SpawnOk :=
  match act with
  | .connect =>
      ([(NetEventKind.error
          "Cannot connect to the main room (it is a local room)").to_current_event
            a.id now none], a, none)
  | .disconnect =>
      ([(NetEventKind.error
          "Cannot disconnect from main room (it is a local room)").to_current_event
            a.id now none], a, none)
  | .publish msg =>
      ([(NetEventKind.message { content := msg }).to_current_event
          a.id now (some "Me")], a, none)
  | .newRoom cmd =>
      match a.spawn parseUrl cmd with
      | (.ok ok, a') =>
          ([(NetEventKind.newRoom (some ok.id) ok.roomAlias).to_current_event
              a'.id now none], a', some ok)
      | (.error e, a') =>
          ([(NetEventKind.error (debugFmt e)).to_current_event
              a'.id now none], a', none)
  | .sync =>
      ([(NetEventKind.error
          "Thou shall stop bothering local residents with syncing matter").to_current_event
            a.id now none], a, none)

/-! ## `src/src/app.rs`: the dispatcher registry -/

/-- The registry update of `App::process_net_event` in `src/src/app.rs`:
a `NewRoom` event inserts its room under its id (`add_room`); every
other event leaves the registry unchanged.  The registry value is
abstracted to the room alias (the source stores a `Room` of UI state and
the sender channel).  The source unwraps `r.id`; the core always fills
it in, and a `NewRoom` event without an id is left as a no-op here. -/
def registryStep (rooms : List (Nat × String)) (ev : NetEvent) :
    List (Nat × String) :=
  match ev.event with
  | .newRoom (some id) roomAlias => (id, roomAlias) :: rooms
  | _ => rooms

/-! ## Derived notions used by the verification -/

/-- The section of `Server::sync` an event kind is emitted from: leaves
(0) before joins (1: `NewRoom`, `Connected`, `Message`) before invites
(2) before presence (3).  `Error`/`Unknown` events are never emitted by
the pass itself and get a sentinel phase. -/
def syncPhase : NetEventKind → Nat
  | .disconnected => 0
  | .newRoom _ _ => 1
  | .connected => 1
  | .message _ => 1
  | .invite => 2
  | .presence _ => 3
  | .error _ => 4
  | .unknown _ _ => 4

/-- The lookup-table invariant of a federated session: both tables have
duplicate-free keys, each binding of one table appears transposed in the
other, and every allocated id is below the shared counter (ids are never
reused). -/
def Inv (s : Server) : Prop :=
  (s.rooms_by_name.map Prod.fst).Nodup ∧
  (s.rooms_by_id.map Prod.fst).Nodup ∧
  (∀ p ∈ s.rooms_by_name, (p.2, p.1) ∈ s.rooms_by_id) ∧
  (∀ p ∈ s.rooms_by_id, (p.2, p.1) ∈ s.rooms_by_name) ∧
  (∀ p ∈ s.rooms_by_id, p.1 < s.room_sn.sn)

instance (s : Server) : Decidable (Inv s) := by
  unfold Inv; infer_instance

/-- The operations of the federated session that touch the lookup
tables: adding a discovered room, removing a room, one sync pass. -/
inductive ServerOp
  | addRoom (name : String)
  | removeRoom (id : Nat)
  | syncTick (now : Nat) (transport : Except String SyncResponse)

/-- The state transformation of each `ServerOp` (`add_room_name` leaves
the state unchanged when it rejects the name). -/
def applyOp : ServerOp → Server → Server
  | .addRoom name, s =>
      match s.add_room_name name with
      | .ok (_, s') => s'
      | .error _ => s
  | .removeRoom id, s => (s.remove_room id).1
  | .syncTick now transport, s => (s.sync now transport).server

/-- Upper bound on the number of fresh ids an operation allocates from
the shared counter: one for `add_room_name`, at most one per join entry
of a sync response, none otherwise. -/
def allocBound : ServerOp → Nat
  | .addRoom _ => 1
  | .removeRoom _ => 0
  | .syncTick _ (.ok resp) => resp.join.length
  | .syncTick _ (.error _) => 0

/-- Representability of the state for an operation: the `usize` counter
value (always below `2^64` in the program, where it is a machine word)
has enough headroom for the operation's allocations, so the counter does
not wrap during the operation. -/
abbrev opHeadroom (op : ServerOp) (s : Server) : Prop :=
  s.room_sn.sn + allocBound op < USIZE

/-! ## Association-list lemmas -/

theorem alookup_nil {α β : Type} [DecidableEq α] (a : α) :
    alookup ([] : List (α × β)) a = none := rfl

theorem alookup_cons {α β : Type} [DecidableEq α] (k : α) (v : β)
    (t : List (α × β)) (a : α) :
    alookup ((k, v) :: t) a = if k = a then some v else alookup t a := rfl

theorem alookup_mem {α β : Type} [DecidableEq α] {l : List (α × β)} {a : α}
    {b : β} (h : alookup l a = some b) : (a, b) ∈ l := by
  induction l with
  | nil => simp [alookup] at h
  | cons p t ih =>
      obtain ⟨k, v⟩ := p
      rw [alookup_cons] at h
      by_cases hk : k = a
      · rw [if_pos hk] at h
        have hv : v = b := Option.some.inj h
        subst hv
        subst hk
        exact List.mem_cons_self _ _
      · rw [if_neg hk] at h
        exact List.mem_cons_of_mem _ (ih h)

theorem alookup_eq_none_iff {α β : Type} [DecidableEq α] {l : List (α × β)}
    {a : α} : alookup l a = none ↔ a ∉ l.map Prod.fst := by
  induction l with
  | nil => simp [alookup]
  | cons p t ih =>
      obtain ⟨k, v⟩ := p
      rw [alookup_cons]
      by_cases hk : k = a
      · subst hk; simp
      · have hak : ¬a = k := fun h => hk h.symm
        simp [if_neg hk, ih, hak]

theorem alookup_of_mem_nodup {α β : Type} [DecidableEq α] {l : List (α × β)}
    {a : α} {b : β} (hm : (a, b) ∈ l) (hnd : (l.map Prod.fst).Nodup) :
    alookup l a = some b := by
  induction l with
  | nil => simp at hm
  | cons p t ih =>
      obtain ⟨k, v⟩ := p
      simp only [List.map_cons, List.nodup_cons] at hnd
      rw [alookup_cons]
      rcases List.mem_cons.mp hm with hh | ht
      · obtain ⟨rfl, rfl⟩ := Prod.mk.inj hh.symm
        simp
      · have hka : k ≠ a := by
          intro hk
          subst hk
          exact hnd.1 (List.mem_map.mpr ⟨(k, b), ht, rfl⟩)
        rw [if_neg hka]
        exact ih ht hnd.2

theorem mem_value_unique {α β : Type} [DecidableEq α] {l : List (α × β)}
    {a : α} {b₁ b₂ : β} (h₁ : (a, b₁) ∈ l) (h₂ : (a, b₂) ∈ l)
    (hnd : (l.map Prod.fst).Nodup) : b₁ = b₂ := by
  have e₁ := alookup_of_mem_nodup h₁ hnd
  have e₂ := alookup_of_mem_nodup h₂ hnd
  rw [e₁] at e₂
  exact Option.some.inj e₂

theorem mem_of_mem_aremove {α β : Type} [DecidableEq α] {l : List (α × β)}
    {a : α} {q : α × β} (h : q ∈ aremove l a) : q ∈ l := by
  induction l with
  | nil => simp [aremove] at h
  | cons p t ih =>
      obtain ⟨k, v⟩ := p
      rw [aremove] at h
      by_cases hk : k = a
      · rw [if_pos hk] at h
        exact List.mem_cons_of_mem _ h
      · rw [if_neg hk] at h
        rcases List.mem_cons.mp h with hh | ht
        · exact hh ▸ List.mem_cons_self _ _
        · exact List.mem_cons_of_mem _ (ih ht)

theorem mem_aremove_of_ne {α β : Type} [DecidableEq α] {l : List (α × β)}
    {a : α} {q : α × β} (h : q ∈ l) (hne : q.1 ≠ a) : q ∈ aremove l a := by
  induction l with
  | nil => simp at h
  | cons p t ih =>
      obtain ⟨k, v⟩ := p
      rw [aremove]
      rcases List.mem_cons.mp h with hh | ht
      · subst hh
        rw [if_neg hne]
        exact List.mem_cons_self _ _
      · by_cases hk : k = a
        · rw [if_pos hk]; exact ht
        · rw [if_neg hk]
          exact List.mem_cons_of_mem _ (ih ht)

theorem map_fst_aremove_sublist {α β : Type} [DecidableEq α]
    (l : List (α × β)) (a : α) :
    List.Sublist ((aremove l a).map Prod.fst) (l.map Prod.fst) := by
  induction l with
  | nil => simp [aremove]
  | cons p t ih =>
      obtain ⟨k, v⟩ := p
      rw [aremove]
      by_cases hk : k = a
      · rw [if_pos hk]
        exact List.sublist_cons_self _ _
      · rw [if_neg hk]
        simpa using ih.cons₂ k

theorem fst_ne_of_mem_aremove {α β : Type} [DecidableEq α] {l : List (α × β)}
    {a : α} {q : α × β} (hnd : (l.map Prod.fst).Nodup)
    (h : q ∈ aremove l a) : q.1 ≠ a := by
  induction l with
  | nil => simp [aremove] at h
  | cons p t ih =>
      obtain ⟨k, v⟩ := p
      simp only [List.map_cons, List.nodup_cons] at hnd
      rw [aremove] at h
      by_cases hk : k = a
      · subst hk
        rw [if_pos rfl] at h
        intro hq
        exact hnd.1 (List.mem_map.mpr ⟨q, h, hq⟩)
      · rw [if_neg hk] at h
        rcases List.mem_cons.mp h with hh | ht
        · subst hh; exact hk
        · exact ih hnd.2 ht

/-! ## C5: SequenceNumber -/

/-- Source: `n` calls to `next()` from counter value `sv` yield
`sv, sv+1, …, sv+n-1` and end at `(sv + n) % USIZE`, as long as the
window does not cross the wrapping point. -/
theorem SequenceNumber.take_spec (n : Nat) :
    ∀ sv : Nat, sv < USIZE → sv + n ≤ USIZE →
      ((SequenceNumber.mk sv).take n).1 = (List.range' sv n).map some ∧
      ((SequenceNumber.mk sv).take n).2 = { sn := (sv + n) % USIZE } := by
  induction n with
  | zero =>
      intro sv hs _
      refine ⟨by simp [SequenceNumber.take, List.range'], ?_⟩
      simp only [SequenceNumber.take]
      congr 1
      rw [Nat.add_zero, Nat.mod_eq_of_lt hs]
  | succ n ih =>
      intro sv hs h
      by_cases hlt : sv + 1 < USIZE
      · have hmod : (sv + 1) % USIZE = sv + 1 := Nat.mod_eq_of_lt hlt
        have ih' := ih (sv + 1) hlt (by omega)
        constructor
        · simp only [SequenceNumber.take, SequenceNumber.next, hmod]
          rw [ih'.1]
          simp [List.range']
        · simp only [SequenceNumber.take, SequenceNumber.next, hmod]
          rw [ih'.2]
          congr 2
          omega
      · have hn : n = 0 := by omega
        subst hn
        constructor
        · simp [SequenceNumber.take, SequenceNumber.next, List.range']
        · simp [SequenceNumber.take, SequenceNumber.next]

/-- Source: `take` splits along addition: the first `m` calls, then `k`
more from the state the `m`-th call left behind. -/
theorem SequenceNumber.take_add (m k : Nat) :
    ∀ s : SequenceNumber,
      (s.take (m + k)).1 = (s.take m).1 ++ ((s.take m).2.take k).1 ∧
      (s.take (m + k)).2 = ((s.take m).2.take k).2 := by
  induction m with
  | zero =>
      intro s
      constructor
      · simp [SequenceNumber.take]
      · simp [SequenceNumber.take]
  | succ m ih =>
      intro s
      have hsa : m + 1 + k = (m + k) + 1 := by omega
      rw [hsa]
      obtain ⟨h1, h2⟩ := ih (SequenceNumber.mk ((s.sn + 1) % USIZE))
      constructor
      · simp only [SequenceNumber.take, SequenceNumber.next]
        rw [h1]
        simp
      · simp only [SequenceNumber.take, SequenceNumber.next]
        rw [h2]

/-- C5 (amended): for a fresh `SequenceNumber` generator and any
`n ≤ 2^64`, the n-th call to `next()` returns `n-1`: the values of the
`n` calls are exactly `some 0, some 1, …, some (n-1)` — starting at
`0`, strictly increasing, `n` distinct values, no gaps, no duplicates.
Beyond `2^64` calls the `usize` counter wraps and values repeat (see the
counterexample). -/
theorem spec_c5 (n : Nat) (h : n ≤ USIZE) :
    (SequenceNumber.default.take n).1 = (List.range n).map some ∧
    (∀ k, k < n → (SequenceNumber.default.take n).1[k]? = some (some k)) ∧
    (SequenceNumber.default.take n).1.Nodup := by
  have hU : (0 : Nat) < USIZE := by norm_num [USIZE]
  have h0 := SequenceNumber.take_spec n 0 hU (by omega)
  have hd : SequenceNumber.default = SequenceNumber.mk 0 := rfl
  have h1 : (SequenceNumber.default.take n).1 = (List.range n).map some := by
    rw [hd, h0.1, ← List.range_eq_range']
  refine ⟨h1, ?_, ?_⟩
  · intro k hk
    rw [h1, List.getElem?_map, List.getElem?_range hk]
    rfl
  · rw [h1]
    exact (List.nodup_range n).map fun _ _ => Option.some.inj

/-- Witness for C5 at a concrete number of calls. -/
theorem spec_c5_witness :
    (SequenceNumber.default.take 3).1 = (List.range 3).map some :=
  (spec_c5 3 (by norm_num [USIZE])).1

/-- Counterexample to C5 as stated: after `2^64 + 1` calls the list of
returned values is no longer duplicate-free — the `usize` counter wraps
after the `2^64`-th call and the value `0` is issued a second time. -/
theorem spec_c5_counterexample :
    ¬ (SequenceNumber.default.take (USIZE + 1)).1.Nodup := by
  intro hnd
  have hU : (0 : Nat) < USIZE := by norm_num [USIZE]
  have hd : SequenceNumber.default = SequenceNumber.mk 0 := rfl
  have hfull := SequenceNumber.take_spec USIZE 0 hU (by omega)
  have hadd := (SequenceNumber.take_add USIZE 1 (SequenceNumber.mk 0)).1
  rw [hd, hadd, hfull.1, hfull.2] at hnd
  have hmod : (0 + USIZE) % USIZE = 0 := by
    rw [Nat.zero_add, Nat.mod_self]
  rw [hmod] at hnd
  have hone : ((SequenceNumber.mk 0).take 1).1 = [some 0] := rfl
  rw [hone] at hnd
  have hmem : (some 0) ∈ (List.range' 0 USIZE).map some := by
    refine List.mem_map.mpr ⟨0, ?_, rfl⟩
    rw [← List.range_eq_range']
    exact List.mem_range.mpr hU
  exact (List.nodup_append.mp hnd).2.2 hmem (by simp)

/-! ## C6: room addresses -/

/-- C6: `child_of` yields an address one segment longer than its parent;
distinct child indices under one parent never produce equal addresses;
the root room's address is the empty sequence (and no child address is
the root address). -/
theorem spec_c6 :
    (∀ (p : RoomAddress) (i : Nat), (child_of p i).length = p.length + 1) ∧
    (∀ (p : RoomAddress) (i j : Nat), i ≠ j → child_of p i ≠ child_of p j) ∧
    rootAddress = ([] : RoomAddress) ∧
    (∀ (p : RoomAddress) (i : Nat), is_root (child_of p i) = false) ∧
    is_root rootAddress = true := by
  refine ⟨?_, ?_, rfl, ?_, rfl⟩
  · intro p i
    simp [child_of]
  · intro p i j hij hc
    apply hij
    have h := List.append_cancel_left (hc : p ++ [i] = p ++ [j])
    exact (List.cons.inj h).1
  · intro p i
    simp [is_root, child_of]

/-- Witness for C6 at a concrete parent and pair of indices. -/
theorem spec_c6_witness :
    child_of [0] 3 ≠ child_of [0] 5 :=
  spec_c6.2.1 [0] 3 5 (by decide)

/-! ## C8: publish on the root session -/

/-- C8: the root session processing `publish("hello")` emits exactly one
event — a `Message` with content `"hello"`, source `"Me"`, the current
time as date, addressed at the session's own id — and nothing else, with
the session state unchanged. -/
theorem spec_c8 (a : App) (now : Nat)
    (parseUrl : String → Except String String)
    (debugFmt : String → String) :
    a.processAction now parseUrl debugFmt (.publish "hello") =
      ([{ date := now, room := a.id, source := some "Me",
          event := .message { content := "hello" } }], a, none) := rfl

/-! ## C1: transport failure leaves the sync state untouched -/

/-- C1: a sync tick whose incremental-sync request fails at the transport
step returns an `ErrorBatch` with exactly one entry attributed to the
session's own id, leaves the stored cursor (and all other state)
unchanged, and emits no events at all. -/
theorem spec_c1 (s : Server) (now : Nat) (e : String)
    (h : s.client = true) :
    s.sync now (.error e) =
      { server := s, events := [], result := .error [(s.id, e)] } := by
  simp [Server.sync, Server.sync_request, h]

/-- Witness for C1 at a concrete connected server. -/
theorem spec_c1_witness :
    Server.sync
        { id := 0, last_sync := some "B1", client := true,
          rooms_by_name := [("r", 1)], rooms_by_id := [(1, "r")],
          room_sn := { sn := 2 }, msg_sn := { sn := 0 } } 7 (.error "timeout") =
      { server :=
          { id := 0, last_sync := some "B1", client := true,
            rooms_by_name := [("r", 1)], rooms_by_id := [(1, "r")],
            room_sn := { sn := 2 }, msg_sn := { sn := 0 } },
        events := [], result := .error [(0, "timeout")] } :=
  spec_c1 _ 7 "timeout" rfl

/-! ## C2: cursor advancement -/

/-- C2: whenever the sync request itself succeeds the stored cursor is
advanced to the response's continuation token — whatever per-category
errors the pass accumulated — and when the request fails the cursor is
unchanged. -/
theorem spec_c2 (s : Server) (now : Nat) (h : s.client = true) :
    (∀ resp : SyncResponse,
        (s.sync now (.ok resp)).server.last_sync = some resp.next_batch) ∧
    (∀ e : String, (s.sync now (.error e)).server.last_sync = s.last_sync) := by
  constructor
  · intro resp
    simp [Server.sync, Server.sync_request, h]
  · intro e
    simp [Server.sync, Server.sync_request, h]

/-- Witness for C2: a concrete tick whose response carries a failing
timeline entry (a per-category error) still advances the cursor. -/
theorem spec_c2_witness :
    (Server.sync
        { id := 0, last_sync := some "B1", client := true,
          rooms_by_name := [("r", 1)], rooms_by_id := [(1, "r")],
          room_sn := { sn := 2 }, msg_sn := { sn := 0 } } 7
        (.ok { leave := [], join := [("r", { timeline := [.ok (.other "Topic")] })],
               invite := [], presence := [], next_batch := "B2" })).server.last_sync =
      some "B2" :=
  (spec_c2 _ 7 rfl).1 _

/-! ## C7: malformed spawn-room requests on the root session -/

/-- C7: a spawn-room action whose token list is exactly `["matrix"]` (no
URL), or empty, or starts with an unknown backend name, makes the root
session emit exactly one `error` event at its own id whose text is the
`Debug` rendering of the message naming the problem, leaves the session
state (in particular the shared room counter) unchanged, spawns nothing,
and registers nothing in the dispatcher registry. -/
theorem spec_c7 (a : App) (now : Nat)
    (parseUrl : String → Except String String)
    (debugFmt : String → String) (al : String)
    (rooms : List (Nat × String)) :
    (a.processAction now parseUrl debugFmt
          (.newRoom { roomAlias := al, command := ["matrix"] }) =
        ([(NetEventKind.error
            (debugFmt
              "Bad syntax. Syntax: matrix <url> [username [password]]")).to_current_event
            a.id now none], a, none) ∧
      ((a.processAction now parseUrl debugFmt
          (.newRoom { roomAlias := al, command := ["matrix"] })).1.foldl
        registryStep rooms) = rooms) ∧
    (a.processAction now parseUrl debugFmt
          (.newRoom { roomAlias := al, command := [] }) =
        ([(NetEventKind.error
            (debugFmt
              "No server type specified! Syntax: <server_type> [...args]")).to_current_event
            a.id now none], a, none) ∧
      ((a.processAction now parseUrl debugFmt
          (.newRoom { roomAlias := al, command := [] })).1.foldl
        registryStep rooms) = rooms) ∧
    (∀ (t : String) (rest : List String), t ≠ "matrix" →
      a.processAction now parseUrl debugFmt
            (.newRoom { roomAlias := al, command := t :: rest }) =
          ([(NetEventKind.error
              (debugFmt ("Unknown server type '" ++ t ++ "'"))).to_current_event
              a.id now none], a, none) ∧
        ((a.processAction now parseUrl debugFmt
            (.newRoom { roomAlias := al, command := t :: rest })).1.foldl
          registryStep rooms) = rooms) := by
  refine ⟨⟨?_, ?_⟩, ⟨?_, ?_⟩, ?_⟩
  · simp [App.processAction, App.spawn]
  · simp [App.processAction, App.spawn, registryStep, NetEventKind.to_current_event,
      NetEventKind.to_event]
  · simp [App.processAction, App.spawn]
  · simp [App.processAction, App.spawn, registryStep, NetEventKind.to_current_event,
      NetEventKind.to_event]
  · intro t rest ht
    refine ⟨?_, ?_⟩
    · simp [App.processAction, App.spawn, ht]
    · simp [App.processAction, App.spawn, ht, registryStep,
        NetEventKind.to_current_event, NetEventKind.to_event]

/-- Witness for C7 at a concrete unknown backend name and a concrete
`Debug` renderer. -/
theorem spec_c7_witness :
    App.processAction { id := 0, room_sn := { sn := 1 } } 5 (fun u => .ok u)
        (fun e => "\"" ++ e ++ "\"")
        (.newRoom { roomAlias := "a", command := ["irc", "srv"] }) =
      ([(NetEventKind.error
          "\"Unknown server type 'irc'\"").to_current_event 0 5 none],
        { id := 0, room_sn := { sn := 1 } }, none) :=
  ((spec_c7 { id := 0, room_sn := { sn := 1 } } 5 (fun u => .ok u)
      (fun e => "\"" ++ e ++ "\"") "a" []).2.2
    "irc" ["srv"] (by decide)).1

/-! ## C10: actions for an unknown child room -/

/-- C10: an action addressed to a child room id absent from the lookup
tables issues no backend request, changes no state, emits no event
directly, and returns a singleton `ErrorBatch` attributed to the
session's *own* id naming the unknown room — which the session loop then
demultiplexes into exactly one `error` event at the session's own id. -/
theorem spec_c10 (s : Server) (now : Nat)
    (transport : SubRequest → Except String Unit) (room : Nat)
    (act : ActionKind) (h : alookup s.rooms_by_id room = none) :
    s.process_sub_room_action now transport room act =
      some { server := s, events := [], requests := [],
             result := .error [(s.id, "Unknown room " ++ toString room)] } ∧
    demuxErrorBatch s.id now [(s.id, "Unknown room " ++ toString room)] =
      [(NetEventKind.error ("Unknown room " ++ toString room)).to_current_event
        s.id now none] := by
  constructor
  · simp [Server.process_sub_room_action, h]
  · simp [demuxErrorBatch]

/-- Witness for C10 at a concrete state and unknown room id. -/
theorem spec_c10_witness :
    Server.process_sub_room_action
        { id := 0, last_sync := none, client := true,
          rooms_by_name := [("r", 1)], rooms_by_id := [(1, "r")],
          room_sn := { sn := 2 }, msg_sn := { sn := 0 } } 9 (fun _ => .ok ())
        3 (.publish "x") =
      some { server :=
               { id := 0, last_sync := none, client := true,
                 rooms_by_name := [("r", 1)], rooms_by_id := [(1, "r")],
                 room_sn := { sn := 2 }, msg_sn := { sn := 0 } },
             events := [], requests := [],
             result := .error [(0, "Unknown room 3")] } :=
  (spec_c10
    { id := 0, last_sync := none, client := true,
      rooms_by_name := [("r", 1)], rooms_by_id := [(1, "r")],
      room_sn := { sn := 2 }, msg_sn := { sn := 0 } }
    9 (fun _ => .ok ()) 3 (.publish "x") (by decide)).1

/-! ## C4: partial failure on an unsupported timeline entry -/

/-- C4: a sync tick whose payload is a single join carrying one timeline
entry of an unsupported payload kind still emits the `connected` event
for that room, records exactly one error in the returned `ErrorBatch`,
attributed to that room's id and naming the entry, and still advances
the cursor — the entry is neither dropped silently nor fatal to the
batch. -/
theorem spec_c4 (s : Server) (now : Nat) (name d nb : String)
    (h : s.client = true) :
    ∃ id,
      (NetEventKind.connected.to_current_event id now none) ∈
        (s.sync now (.ok { leave := [], join := [(name, { timeline := [.ok (.other d)] })],
                           invite := [], presence := [], next_batch := nb })).events ∧
      (s.sync now (.ok { leave := [], join := [(name, { timeline := [.ok (.other d)] })],
                         invite := [], presence := [], next_batch := nb })).result =
        .error [(id, "Unmanaged room event type: " ++ d)] ∧
      (s.sync now (.ok { leave := [], join := [(name, { timeline := [.ok (.other d)] })],
                         invite := [], presence := [], next_batch := nb })).server.last_sync =
        some nb := by
  rcases hn : alookup s.rooms_by_name name with _ | id
  · refine ⟨s.room_sn.sn, ?_, ?_, ?_⟩ <;>
      simp [Server.sync, Server.sync_request, h, Server.joinStep,
        Server.leaveEvents, Server.inviteEvents, Server.presenceOutputs,
        timelineOutputs, timelineStep, Server.spawn_room, Server.add_room_name,
        SequenceNumber.nextU, hn, alookup_cons]
  · refine ⟨id, ?_, ?_, ?_⟩ <;>
      simp [Server.sync, Server.sync_request, h, Server.joinStep,
        Server.leaveEvents, Server.inviteEvents, Server.presenceOutputs,
        timelineOutputs, timelineStep, Server.spawn_room, Server.add_room_name,
        SequenceNumber.nextU, hn, alookup_cons]

/-- Witness for C4 at a concrete connected server and room. -/
theorem spec_c4_witness :
    ∃ id,
      (NetEventKind.connected.to_current_event id 7 none) ∈
        (Server.sync
          { id := 0, last_sync := none, client := true,
            rooms_by_name := [("r", 1)], rooms_by_id := [(1, "r")],
            room_sn := { sn := 2 }, msg_sn := { sn := 0 } } 7
          (.ok { leave := [], join := [("r", { timeline := [.ok (.other "Topic")] })],
                 invite := [], presence := [], next_batch := "B2" })).events ∧
      (Server.sync
          { id := 0, last_sync := none, client := true,
            rooms_by_name := [("r", 1)], rooms_by_id := [(1, "r")],
            room_sn := { sn := 2 }, msg_sn := { sn := 0 } } 7
          (.ok { leave := [], join := [("r", { timeline := [.ok (.other "Topic")] })],
                 invite := [], presence := [], next_batch := "B2" })).result =
        .error [(id, "Unmanaged room event type: " ++ "Topic")] ∧
      (Server.sync
          { id := 0, last_sync := none, client := true,
            rooms_by_name := [("r", 1)], rooms_by_id := [(1, "r")],
            room_sn := { sn := 2 }, msg_sn := { sn := 0 } } 7
          (.ok { leave := [], join := [("r", { timeline := [.ok (.other "Topic")] })],
                 invite := [], presence := [], next_batch := "B2" })).server.last_sync =
        some "B2" :=
  spec_c4
    { id := 0, last_sync := none, client := true,
      rooms_by_name := [("r", 1)], rooms_by_id := [(1, "r")],
      room_sn := { sn := 2 }, msg_sn := { sn := 0 } }
    7 "r" "Topic" "B2" rfl

/-! ## C3: ordering of the sections of one sync tick -/

theorem phase_leaveEvents (s : Server) (now : Nat) (l : List String) :
    ∀ e ∈ s.leaveEvents now l, syncPhase e.event = 0 := by
  intro e he
  simp only [Server.leaveEvents, List.mem_filterMap] at he
  obtain ⟨name, _, hf⟩ := he
  rcases ho : alookup s.rooms_by_name name with _ | id <;> rw [ho] at hf
  · simp at hf
  · simp only [Option.map_some', Option.some.injEq] at hf
    rw [← hf]
    rfl

theorem phase_inviteEvents (s : Server) (now : Nat) (l : List String) :
    ∀ e ∈ s.inviteEvents now l, syncPhase e.event = 2 := by
  intro e he
  simp only [Server.inviteEvents, List.mem_filterMap] at he
  obtain ⟨name, _, hf⟩ := he
  rcases ho : alookup s.rooms_by_name name with _ | id <;> rw [ho] at hf
  · simp at hf
  · simp only [Option.map_some', Option.some.injEq] at hf
    rw [← hf]
    rfl

theorem phase_timelineStep (id : Nat) (acc : List NetEvent × ErrorBatch)
    (x : EventResult RoomEvent)
    (h : ∀ e ∈ acc.1, syncPhase e.event = 1) :
    ∀ e ∈ (timelineStep id acc x).1, syncPhase e.event = 1 := by
  intro e he
  rcases x with rm | d
  · rcases rm with ⟨content, ts⟩ | d2
    · simp only [timelineStep, List.mem_append, List.mem_singleton] at he
      rcases he with h1 | rfl
      · exact h e h1
      · rfl
    · exact h e he
  · exact h e he

theorem phase_timeline_fold (id : Nat) (tl : List (EventResult RoomEvent)) :
    ∀ acc : List NetEvent × ErrorBatch,
      (∀ e ∈ acc.1, syncPhase e.event = 1) →
      ∀ e ∈ (tl.foldl (timelineStep id) acc).1, syncPhase e.event = 1 := by
  induction tl with
  | nil => intro acc h e he; exact h e he
  | cons x tl ih =>
      intro acc h e he
      exact ih (timelineStep id acc x) (phase_timelineStep id acc x h) e he

theorem phase_timelineOutputs (id : Nat) (tl : List (EventResult RoomEvent)) :
    ∀ e ∈ (timelineOutputs id tl).1, syncPhase e.event = 1 :=
  phase_timeline_fold id tl ([], []) (by simp)

theorem phase_presenceStep (s : Server) (now : Nat)
    (acc : List NetEvent × ErrorBatch) (x : EventResult PresenceEvent)
    (h : ∀ e ∈ acc.1, syncPhase e.event = 3) :
    ∀ e ∈ (s.presenceStep now acc x).1, syncPhase e.event = 3 := by
  intro e he
  rcases x with p | d
  · simp only [Server.presenceStep, List.mem_append, List.mem_singleton] at he
    rcases he with h1 | rfl
    · exact h e h1
    · rfl
  · exact h e he

theorem phase_presence_fold (s : Server) (now : Nat)
    (ps : List (EventResult PresenceEvent)) :
    ∀ acc : List NetEvent × ErrorBatch,
      (∀ e ∈ acc.1, syncPhase e.event = 3) →
      ∀ e ∈ (ps.foldl (s.presenceStep now) acc).1, syncPhase e.event = 3 := by
  induction ps with
  | nil => intro acc h e he; exact h e he
  | cons x ps ih =>
      intro acc h e he
      exact ih (s.presenceStep now acc x) (phase_presenceStep s now acc x h) e he

theorem phase_presenceOutputs (s : Server) (now : Nat)
    (ps : List (EventResult PresenceEvent)) :
    ∀ e ∈ (s.presenceOutputs now ps).1, syncPhase e.event = 3 :=
  phase_presence_fold s now ps ([], []) (by simp)

/-- Source: `add_room_name` on an unseen name: the allocated id and the exact
updated state. -/
theorem add_room_name_of_none (s : Server) (name : String)
    (h : alookup s.rooms_by_name name = none) :
    s.add_room_name name = .ok (s.room_sn.sn,
      { s with rooms_by_name := (name, s.room_sn.sn) :: s.rooms_by_name,
               rooms_by_id := (s.room_sn.sn, name) :: s.rooms_by_id,
               room_sn := { sn := (s.room_sn.sn + 1) % USIZE } }) := by
  simp [Server.add_room_name, h, SequenceNumber.nextU]

/-- Source: `spawn_room` on an unseen name: the exact updated state and emitted
`NewRoom` event. -/
theorem spawn_room_of_none (s : Server) (now : Nat) (name : String)
    (roomAlias : Option String) (h : alookup s.rooms_by_name name = none) :
    s.spawn_room now name roomAlias = .ok
      ({ s with rooms_by_name := (name, s.room_sn.sn) :: s.rooms_by_name,
                rooms_by_id := (s.room_sn.sn, name) :: s.rooms_by_id,
                room_sn := { sn := (s.room_sn.sn + 1) % USIZE } },
        (NetEventKind.newRoom (some s.room_sn.sn)
          (roomAlias.getD name)).to_current_event s.id now none) := by
  rw [Server.spawn_room, add_room_name_of_none s name h]

/-- One join iteration on a room already in the lookup table. -/
theorem joinStep_of_some (now : Nat) (acc : Server × List NetEvent × ErrorBatch)
    (entry : String × JoinedRoom) (id : Nat)
    (h : alookup acc.1.rooms_by_name entry.1 = some id) :
    Server.joinStep now acc entry =
      (acc.1,
        acc.2.1 ++ [NetEventKind.connected.to_current_event id now none] ++
          (timelineOutputs id entry.2.timeline).1,
        acc.2.2 ++ (timelineOutputs id entry.2.timeline).2) := by
  simp [Server.joinStep, h]

/-- One join iteration on an unseen room: the `NewRoom` event precedes
the `Connected` event, which precedes the timeline messages. -/
theorem joinStep_of_none (now : Nat) (acc : Server × List NetEvent × ErrorBatch)
    (entry : String × JoinedRoom)
    (h : alookup acc.1.rooms_by_name entry.1 = none) :
    Server.joinStep now acc entry =
      ({ acc.1 with
          rooms_by_name := (entry.1, acc.1.room_sn.sn) :: acc.1.rooms_by_name,
          rooms_by_id := (acc.1.room_sn.sn, entry.1) :: acc.1.rooms_by_id,
          room_sn := { sn := (acc.1.room_sn.sn + 1) % USIZE } },
        acc.2.1 ++
          [(NetEventKind.newRoom (some acc.1.room_sn.sn) entry.1).to_current_event
            acc.1.id now none] ++
          [NetEventKind.connected.to_current_event acc.1.room_sn.sn now none] ++
          (timelineOutputs acc.1.room_sn.sn entry.2.timeline).1,
        acc.2.2 ++ (timelineOutputs acc.1.room_sn.sn entry.2.timeline).2) := by
  simp [Server.joinStep, h, spawn_room_of_none acc.1 now entry.1 none h,
    alookup_cons]

theorem phase_joinStep (now : Nat) (acc : Server × List NetEvent × ErrorBatch)
    (entry : String × JoinedRoom)
    (h : ∀ e ∈ acc.2.1, syncPhase e.event = 1) :
    ∀ e ∈ (Server.joinStep now acc entry).2.1, syncPhase e.event = 1 := by
  intro e he
  rcases ho : alookup acc.1.rooms_by_name entry.1 with _ | id
  · rw [joinStep_of_none now acc entry ho] at he
    simp only [List.mem_append, List.mem_singleton] at he
    rcases he with ((h1 | rfl) | rfl) | h4
    · exact h e h1
    · rfl
    · rfl
    · exact phase_timelineOutputs _ _ e h4
  · rw [joinStep_of_some now acc entry id ho] at he
    simp only [List.mem_append, List.mem_singleton] at he
    rcases he with (h1 | rfl) | h3
    · exact h e h1
    · rfl
    · exact phase_timelineOutputs _ _ e h3

theorem phase_join_fold (now : Nat) (joins : List (String × JoinedRoom)) :
    ∀ acc : Server × List NetEvent × ErrorBatch,
      (∀ e ∈ acc.2.1, syncPhase e.event = 1) →
      ∀ e ∈ (joins.foldl (Server.joinStep now) acc).2.1,
        syncPhase e.event = 1 := by
  induction joins with
  | nil => intro acc h e he; exact h e he
  | cons x joins ih =>
      intro acc h e he
      exact ih (Server.joinStep now acc x) (phase_joinStep now acc x h) e he

theorem joinStep_events_extend (now : Nat)
    (acc : Server × List NetEvent × ErrorBatch) (entry : String × JoinedRoom) :
    ∃ t, (Server.joinStep now acc entry).2.1 = acc.2.1 ++ t := by
  rcases ho : alookup acc.1.rooms_by_name entry.1 with _ | id
  · rw [joinStep_of_none now acc entry ho]
    exact ⟨(NetEventKind.newRoom (some acc.1.room_sn.sn) entry.1).to_current_event
        acc.1.id now none ::
        NetEventKind.connected.to_current_event acc.1.room_sn.sn now none ::
        (timelineOutputs acc.1.room_sn.sn entry.2.timeline).1, by simp⟩
  · rw [joinStep_of_some now acc entry id ho]
    exact ⟨NetEventKind.connected.to_current_event id now none ::
        (timelineOutputs id entry.2.timeline).1, by simp⟩

theorem join_fold_events_extend (now : Nat) (joins : List (String × JoinedRoom)) :
    ∀ acc : Server × List NetEvent × ErrorBatch,
      ∃ t, (joins.foldl (Server.joinStep now) acc).2.1 = acc.2.1 ++ t := by
  induction joins with
  | nil => intro acc; exact ⟨[], by simp⟩
  | cons x joins ih =>
      intro acc
      obtain ⟨t1, ht1⟩ := joinStep_events_extend now acc x
      obtain ⟨t2, ht2⟩ := ih (Server.joinStep now acc x)
      refine ⟨t1 ++ t2, ?_⟩
      rw [List.foldl_cons, ht2, ht1, List.append_assoc]

theorem joinStep_lookup_preserved (now : Nat)
    (acc : Server × List NetEvent × ErrorBatch) (entry : String × JoinedRoom)
    (name : String) (id : Nat)
    (h : alookup acc.1.rooms_by_name name = some id) :
    alookup (Server.joinStep now acc entry).1.rooms_by_name name = some id := by
  rcases ho : alookup acc.1.rooms_by_name entry.1 with _ | id2
  · rw [joinStep_of_none now acc entry ho]
    have hne : entry.1 ≠ name := by
      intro heq
      rw [heq, h] at ho
      exact Option.noConfusion ho
    simp only [alookup_cons, if_neg hne]
    exact h
  · rw [joinStep_of_some now acc entry id2 ho]
    exact h

theorem join_fold_lookup_preserved (now : Nat)
    (joins : List (String × JoinedRoom)) :
    ∀ (acc : Server × List NetEvent × ErrorBatch) (name : String) (id : Nat),
      alookup acc.1.rooms_by_name name = some id →
      alookup (joins.foldl (Server.joinStep now) acc).1.rooms_by_name name =
        some id := by
  induction joins with
  | nil => intro acc name id h; exact h
  | cons x joins ih =>
      intro acc name id h
      exact ih (Server.joinStep now acc x) name id
        (joinStep_lookup_preserved now acc x name id h)

theorem join_fold_conn_mem (now : Nat) (joins : List (String × JoinedRoom)) :
    ∀ (acc : Server × List NetEvent × ErrorBatch) (name : String)
      (data : JoinedRoom) (id : Nat),
      (name, data) ∈ joins →
      alookup acc.1.rooms_by_name name = some id →
      NetEventKind.connected.to_current_event id now none ∈
        (joins.foldl (Server.joinStep now) acc).2.1 := by
  induction joins with
  | nil => intro acc name data id hmem _; simp at hmem
  | cons x joins ih =>
      intro acc name data id hmem hl
      rcases List.mem_cons.mp hmem with heq | hmem'
      · obtain ⟨t, ht⟩ := join_fold_events_extend now joins
          (Server.joinStep now acc x)
        rw [List.foldl_cons, ht, ← heq, joinStep_of_some now acc (name, data) id hl]
        simp
      · exact ih (Server.joinStep now acc x) name data id hmem'
          (joinStep_lookup_preserved now acc x name id hl)

theorem leaveEvents_mem (s : Server) (now : Nat) (names : List String)
    (name : String) (id : Nat) (hmem : name ∈ names)
    (h : alookup s.rooms_by_name name = some id) :
    NetEventKind.disconnected.to_current_event id now none ∈
      s.leaveEvents now names := by
  simp only [Server.leaveEvents, List.mem_filterMap]
  exact ⟨name, hmem, by rw [h]; rfl⟩

/-- The events of a successful tick, by section. -/
theorem sync_ok_events (s : Server) (now : Nat) (resp : SyncResponse)
    (h : s.client = true) :
    (s.sync now (.ok resp)).events =
      s.leaveEvents now resp.leave ++
        (resp.join.foldl (Server.joinStep now) (s, [], [])).2.1 ++
        ((resp.join.foldl (Server.joinStep now) (s, [], [])).1.inviteEvents
          now resp.invite) ++
        ((resp.join.foldl (Server.joinStep now) (s, [], [])).1.presenceOutputs
          now resp.presence).1 := by
  simp [Server.sync, Server.sync_request, h]

/-- C3: within one successful sync tick, all leave (`disconnected`)
events precede all join-section events (`room-spawned`/`connected`/
`message`), which precede all `invited` events, which precede all
`presence` events; in particular, a tick containing both a leave and a
join for one known remote room id emits that room's `disconnected`
event before its `connected` event. -/
theorem spec_c3 (s : Server) (now : Nat) (resp : SyncResponse)
    (h : s.client = true) :
    List.Pairwise (fun a b => syncPhase a.event ≤ syncPhase b.event)
        (s.sync now (.ok resp)).events ∧
    (∀ (name : String) (id : Nat) (data : JoinedRoom),
      alookup s.rooms_by_name name = some id →
      name ∈ resp.leave → (name, data) ∈ resp.join →
      List.Sublist
        [NetEventKind.disconnected.to_current_event id now none,
          NetEventKind.connected.to_current_event id now none]
        (s.sync now (.ok resp)).events) := by
  have hL := phase_leaveEvents s now resp.leave
  have hJ := phase_join_fold now resp.join (s, [], []) (by simp)
  have hI := phase_inviteEvents
    (resp.join.foldl (Server.joinStep now) (s, [], [])).1 now resp.invite
  have hP := phase_presenceOutputs
    (resp.join.foldl (Server.joinStep now) (s, [], [])).1 now resp.presence
  rw [sync_ok_events s now resp h] at *
  constructor
  · have pairSame :
        ∀ (X : List NetEvent) (c : Nat), (∀ e ∈ X, syncPhase e.event = c) →
          List.Pairwise (fun a b => syncPhase a.event ≤ syncPhase b.event) X := by
      intro X c hX
      exact List.pairwise_of_forall_mem_list fun a ha b hb => by
        rw [hX a ha, hX b hb]
    rw [List.append_assoc, List.append_assoc]
    rw [List.pairwise_append]
    refine ⟨pairSame _ 0 hL, ?_, ?_⟩
    · rw [List.pairwise_append]
      refine ⟨pairSame _ 1 hJ, ?_, ?_⟩
      · rw [List.pairwise_append]
        refine ⟨pairSame _ 2 hI, pairSame _ 3 hP, ?_⟩
        intro a ha b hb
        rw [hI a ha, hP b hb]
        omega
      · intro a ha b hb
        rw [hJ a ha]
        rcases List.mem_append.mp hb with hb1 | hb2
        · rw [hI b hb1]; omega
        · rw [hP b hb2]; omega
    · intro a ha b hb
      rw [hL a ha]
      exact Nat.zero_le _
  · intro name id data hlook hleave hjoin
    have hdisc := leaveEvents_mem s now resp.leave name id hleave hlook
    have hconn := join_fold_conn_mem now resp.join (s, [], []) name data id
      hjoin hlook
    obtain ⟨l1, l2, hL2⟩ := List.append_of_mem hdisc
    obtain ⟨j1, j2, hJ2⟩ := List.append_of_mem hconn
    rw [List.append_assoc, List.append_assoc, hL2, hJ2]
    have h1 : List.Sublist [NetEventKind.disconnected.to_current_event id now none]
        (l1 ++ NetEventKind.disconnected.to_current_event id now none :: l2) :=
      List.singleton_sublist.mpr (by simp)
    have h2 : List.Sublist [NetEventKind.connected.to_current_event id now none]
        ((j1 ++ NetEventKind.connected.to_current_event id now none :: j2) ++
          ((resp.join.foldl (Server.joinStep now) (s, [], [])).1.inviteEvents
              now resp.invite ++
            ((resp.join.foldl (Server.joinStep now) (s, [], [])).1.presenceOutputs
              now resp.presence).1)) :=
      List.singleton_sublist.mpr (by simp)
    exact List.Sublist.append h1 h2

/-- Witness for C3: the concrete tick of the earlier evaluations, with a
leave and a join for the already-known room `"r1"` (local id 5). -/
theorem spec_c3_witness :
    List.Sublist
      [NetEventKind.disconnected.to_current_event 5 100 none,
        NetEventKind.connected.to_current_event 5 100 none]
      (Server.sync
        { id := 0, last_sync := none, client := true,
          rooms_by_name := [("r1", 5)], rooms_by_id := [(5, "r1")],
          room_sn := { sn := 7 }, msg_sn := { sn := 0 } } 100
        (.ok { leave := ["r1"],
               join := [("r1", { timeline := [.ok (.other "Topic")] })],
               invite := [], presence := [], next_batch := "B2" })).events :=
  (spec_c3
      { id := 0, last_sync := none, client := true,
        rooms_by_name := [("r1", 5)], rooms_by_id := [(5, "r1")],
        room_sn := { sn := 7 }, msg_sn := { sn := 0 } } 100
      { leave := ["r1"], join := [("r1", { timeline := [.ok (.other "Topic")] })],
        invite := [], presence := [], next_batch := "B2" } rfl).2
    "r1" 5 { timeline := [.ok (.other "Topic")] } (by decide) (by decide)
    (by decide)

/-! ## C9: the lookup tables stay mutually inverse -/

/-- Inserting an unseen room name under the fresh counter value keeps
the tables mutually inverse, provided the counter has headroom (does not
wrap on this allocation). -/
theorem add_state_inv (s : Server) (name : String) (h : Inv s)
    (hw : s.room_sn.sn + 1 < USIZE)
    (hl : alookup s.rooms_by_name name = none) :
    Inv { s with rooms_by_name := (name, s.room_sn.sn) :: s.rooms_by_name,
                 rooms_by_id := (s.room_sn.sn, name) :: s.rooms_by_id,
                 room_sn := { sn := (s.room_sn.sn + 1) % USIZE } } := by
  have hmod : (s.room_sn.sn + 1) % USIZE = s.room_sn.sn + 1 :=
    Nat.mod_eq_of_lt hw
  rw [hmod]
  obtain ⟨h1, h2, h3, h4, h5⟩ := h
  refine ⟨?_, ?_, ?_, ?_, ?_⟩
  · simp only [List.map_cons, List.nodup_cons]
    exact ⟨alookup_eq_none_iff.mp hl, h1⟩
  · simp only [List.map_cons, List.nodup_cons]
    refine ⟨?_, h2⟩
    intro hmem
    obtain ⟨p, hp, hfst⟩ := List.mem_map.mp hmem
    have := h5 p hp
    omega
  · intro p hp
    rcases List.mem_cons.mp hp with rfl | hp'
    · exact List.mem_cons_self _ _
    · exact List.mem_cons_of_mem _ (h3 p hp')
  · intro p hp
    rcases List.mem_cons.mp hp with rfl | hp'
    · exact List.mem_cons_self _ _
    · exact List.mem_cons_of_mem _ (h4 p hp')
  · intro p hp
    rcases List.mem_cons.mp hp with rfl | hp'
    · show s.room_sn.sn < s.room_sn.sn + 1
      omega
    · have := h5 p hp'
      show p.1 < s.room_sn.sn + 1
      omega

theorem add_preserves (s : Server) (name : String) (h : Inv s)
    (hw : s.room_sn.sn + 1 < USIZE) :
    Inv (applyOp (.addRoom name) s) := by
  simp only [applyOp]
  rcases hl : alookup s.rooms_by_name name with _ | v
  · rw [add_room_name_of_none s name hl]
    exact add_state_inv s name h hw hl
  · have he : s.add_room_name name =
        .error ("Room '" ++ name ++ "' is already opened") := by
      simp [Server.add_room_name, hl]
    rw [he]
    exact h

theorem remove_preserves (s : Server) (id : Nat) (h : Inv s) :
    Inv (applyOp (.removeRoom id) s) := by
  simp only [applyOp]
  rcases hl : alookup s.rooms_by_id id with _ | name
  · have he : (s.remove_room id).1 = s := by
      simp [Server.remove_room, hl]
    rw [he]
    exact h
  · have he : (s.remove_room id).1 =
        { s with rooms_by_id := aremove s.rooms_by_id id,
                 rooms_by_name := aremove s.rooms_by_name name } := by
      simp [Server.remove_room, hl]
    rw [he]
    obtain ⟨h1, h2, h3, h4, h5⟩ := h
    have hidmem : (id, name) ∈ s.rooms_by_id := alookup_mem hl
    have hnmmem : (name, id) ∈ s.rooms_by_name := h4 (id, name) hidmem
    refine ⟨?_, ?_, ?_, ?_, ?_⟩
    · exact List.Nodup.sublist (map_fst_aremove_sublist _ _) h1
    · exact List.Nodup.sublist (map_fst_aremove_sublist _ _) h2
    · intro p hp
      have hpl : p ∈ s.rooms_by_name := mem_of_mem_aremove hp
      have hpne : p.1 ≠ name := fst_ne_of_mem_aremove h1 hp
      refine mem_aremove_of_ne (h3 p hpl) ?_
      show p.2 ≠ id
      intro heq
      apply hpne
      have : (p.2, p.1) ∈ s.rooms_by_id := h3 p hpl
      rw [heq] at this
      exact mem_value_unique this hidmem h2
    · intro p hp
      have hpl : p ∈ s.rooms_by_id := mem_of_mem_aremove hp
      have hpne : p.1 ≠ id := fst_ne_of_mem_aremove h2 hp
      refine mem_aremove_of_ne (h4 p hpl) ?_
      show p.2 ≠ name
      intro heq
      apply hpne
      have : (p.2, p.1) ∈ s.rooms_by_name := h4 p hpl
      rw [heq] at this
      exact mem_value_unique this hnmmem h1
    · intro p hp
      exact h5 p (mem_of_mem_aremove hp)

theorem joinStep_inv (now : Nat) (acc : Server × List NetEvent × ErrorBatch)
    (entry : String × JoinedRoom) (h : Inv acc.1)
    (hw : acc.1.room_sn.sn + 1 < USIZE) :
    Inv (Server.joinStep now acc entry).1 := by
  rcases ho : alookup acc.1.rooms_by_name entry.1 with _ | id
  · rw [joinStep_of_none now acc entry ho]
    exact add_state_inv acc.1 entry.1 h hw ho
  · rw [joinStep_of_some now acc entry id ho]
    exact h

/-- One join iteration advances the counter by at most one. -/
theorem joinStep_sn_le (now : Nat) (acc : Server × List NetEvent × ErrorBatch)
    (entry : String × JoinedRoom) :
    (Server.joinStep now acc entry).1.room_sn.sn ≤ acc.1.room_sn.sn + 1 := by
  rcases ho : alookup acc.1.rooms_by_name entry.1 with _ | id
  · rw [joinStep_of_none now acc entry ho]
    exact Nat.mod_le _ _
  · rw [joinStep_of_some now acc entry id ho]
    exact Nat.le_succ _

theorem join_fold_inv (now : Nat) (joins : List (String × JoinedRoom)) :
    ∀ acc : Server × List NetEvent × ErrorBatch, Inv acc.1 →
      acc.1.room_sn.sn + joins.length < USIZE →
      Inv (joins.foldl (Server.joinStep now) acc).1 := by
  induction joins with
  | nil => intro acc h _; exact h
  | cons x joins ih =>
      intro acc h hw
      simp only [List.length_cons] at hw
      have hw1 : acc.1.room_sn.sn + 1 < USIZE := by omega
      have hle := joinStep_sn_le now acc x
      refine ih (Server.joinStep now acc x) (joinStep_inv now acc x h hw1) ?_
      omega

theorem sync_inv (s : Server) (now : Nat)
    (transport : Except String SyncResponse) (h : Inv s)
    (hw : s.room_sn.sn + allocBound (.syncTick now transport) < USIZE) :
    Inv (s.sync now transport).server := by
  rcases hcb : s.client with _ | _
  · have he : (s.sync now transport).server = s := by
      simp [Server.sync, hcb]
    rw [he]
    exact h
  · rcases transport with e | resp
    · have he : (s.sync now (.error e)).server = s := by
        simp [Server.sync, Server.sync_request, hcb]
      rw [he]
      exact h
    · have he : (s.sync now (.ok resp)).server =
          { (resp.join.foldl (Server.joinStep now) (s, [], [])).1 with
              last_sync := some resp.next_batch } := by
        simp [Server.sync, Server.sync_request, hcb]
      rw [he]
      refine join_fold_inv now resp.join (s, [], []) h ?_
      simp only [allocBound] at hw
      exact hw

/-- The mutually-inverse reading of the invariant: a remote room id maps
to a local id in one table iff the local id maps back to it in the
other. -/
theorem inv_alookup_iff (s : Server) (h : Inv s) (n : String) (a : Nat) :
    alookup s.rooms_by_name n = some a ↔ alookup s.rooms_by_id a = some n := by
  obtain ⟨h1, h2, h3, h4, _⟩ := h
  constructor
  · intro hl
    exact alookup_of_mem_nodup (h3 (n, a) (alookup_mem hl)) h2
  · intro hl
    exact alookup_of_mem_nodup (h4 (a, n) (alookup_mem hl)) h1

/-- C9 (amended): every operation of the federated session on its lookup
tables — adding a discovered room, removing a room, a whole sync pass —
preserves the invariant `Inv`, provided the `usize` counter has headroom
for the operation's allocations (it always does until `2^64` ids have
been handed out; at the wrapping point the invariant fails, see the
counterexample).  Under `Inv` the two tables are mutually inverse:
`rooms_by_name` maps a remote id to a local id exactly when
`rooms_by_id` maps that local id back to the remote id. -/
theorem spec_c9 :
    (∀ (op : ServerOp) (s : Server), Inv s → opHeadroom op s →
      Inv (applyOp op s)) ∧
    (∀ s : Server, Inv s → ∀ (n : String) (a : Nat),
      alookup s.rooms_by_name n = some a ↔
        alookup s.rooms_by_id a = some n) := by
  constructor
  · intro op s h hw
    cases op with
    | addRoom name =>
        refine add_preserves s name h ?_
        simpa [opHeadroom, allocBound] using hw
    | removeRoom id => exact remove_preserves s id h
    | syncTick now transport => exact sync_inv s now transport h hw
  · intro s h n a
    exact inv_alookup_iff s h n a

/-- Witness for C9: a concrete state satisfying `Inv` and the headroom
bound, on which a sync tick that spawns a new room keeps `Inv`. -/
theorem spec_c9_witness :
    Inv (applyOp
      (.syncTick 100 (.ok { leave := [], join := [("r2", { timeline := [] })],
                            invite := [], presence := [], next_batch := "B" }))
      { id := 0, last_sync := none, client := true,
        rooms_by_name := [("r1", 5)], rooms_by_id := [(5, "r1")],
        room_sn := { sn := 7 }, msg_sn := { sn := 0 } }) :=
  spec_c9.1
    (.syncTick 100 (.ok { leave := [], join := [("r2", { timeline := [] })],
                          invite := [], presence := [], next_batch := "B" }))
    { id := 0, last_sync := none, client := true,
      rooms_by_name := [("r1", 5)], rooms_by_id := [(5, "r1")],
      room_sn := { sn := 7 }, msg_sn := { sn := 0 } }
    (by decide) (by decide)

/-- Counterexample to C9 as stated: at counter value `2^64 - 1` the
state below satisfies `Inv`, yet adding a discovered room wraps the
`usize` counter to `0` and the invariant fails — the freshness bound of
the just-allocated id is violated, so ids can be reissued past the
wrap. -/
theorem spec_c9_counterexample :
    Inv { id := 0, last_sync := none, client := true,
          rooms_by_name := [("a", 0)], rooms_by_id := [(0, "a")],
          room_sn := { sn := USIZE - 1 }, msg_sn := { sn := 0 } } ∧
    ¬ Inv (applyOp (.addRoom "b")
        { id := 0, last_sync := none, client := true,
          rooms_by_name := [("a", 0)], rooms_by_id := [(0, "a")],
          room_sn := { sn := USIZE - 1 }, msg_sn := { sn := 0 } }) :=
  ⟨by decide, by decide⟩

end MatrixClient
